import Mathlib

/-!
Verification of the CSV transaction-ingestion pipeline (`src/capia/app.py`).

The pipeline's pure core is embedded shallowly:
- `detect_delimiter`, `normalize_column_name`, `parse_amount` are direct
  translations of the Python utility functions;
- `parse_date` wraps the third-party `dateutil` parser in the source, so it is
  modelled from the spec (see its doc comment);
- `csvReadRows` embeds the behavior of Python's `csv.reader` with
  `quotechar` set to the double quote (excel dialect, doublequote handling,
  blank lines yielding empty rows) for newline-delimited input;
- `process_rows` / `process_csv` embed `process_csv`, including the
  session-add / commit-at-end persistence discipline, and `upload_pipeline`
  embeds the non-HTTP logic of `upload_csv` (header classification included).

Python `Decimal` values produced by `parse_amount` are exact rationals
`n / 100`; they are represented by the numerator `n : Nat` (the stripped digit
string's value), and `decimal_str` reproduces `str(Decimal(n)/100)`.
Strings are treated as the code treats ASCII text: `str.isdigit`, `str.lower`
and the regex `[^a-zA-Z0-9]` are embedded with their ASCII meaning, which
coincides with Python's on the ASCII inputs all claims range over.
-/

set_option maxRecDepth 100000

namespace Capia

/-! Delimiter detection (`detect_delimiter`, app.py lines 38-41) -/

/-- Number of occurrences of character `c` in `s` (Python `s.count(c)` for a
single-character needle). -/
def countChar (s : String) (c : Char) : Nat :=
  (s.toList.filter (fun d => d == c)).length

/-- Python `max(counts, key=counts.get)` over an association list in insertion
order: the first key whose count is maximal wins (a later key replaces the
current best only when strictly greater). -/
def maxFirst (c : Char) (n : Nat) : List (Char × Nat) → Char
  | [] => c
  | (c2, n2) :: rest => if n2 > n then maxFirst c2 n2 rest else maxFirst c n rest

/-- Embedding of `detect_delimiter`: count raw occurrences of each candidate in the whole
sample and take the maximum, ties resolved to the earlier candidate in the
order comma, semicolon, pipe. -/
def detect_delimiter (sample_data : String) : Char :=
  let counts := [(',', countChar sample_data ','),
                 (';', countChar sample_data ';'),
                 ('|', countChar sample_data '|')]
  match counts with
  | [] => ','
  | (c, n) :: rest => maxFirst c n rest

/-! Column-name normalization (`normalize_column_name`, app.py lines 43-44) -/

/-- Python `str.lower` on ASCII text: lower-case every character. -/
def lowerStr (s : String) : String :=
  (s.toList.map Char.toLower).asString

/-- Embedding of `re.sub(r'[^a-zA-Z0-9]', '_', name).lower()`: every character that is not
an ASCII letter or digit becomes an underscore, then the result is
lower-cased. -/
def normalize_column_name (name : String) : String :=
  lowerStr ((name.toList.map (fun c => if c.isAlpha || c.isDigit then c else '_')).asString)

/-! Amount parsing (`parse_amount`, app.py lines 46-51) -/

/-- Embedding of `value.replace(',', '').replace('.', '')`: delete every comma and every
dot. -/
def strip_punct (value : String) : String :=
  (value.toList.filter (fun c => c ≠ ',' && c ≠ '.')).asString

/-- Python `str.isdigit` on ASCII text: nonempty and all characters decimal
digits. -/
def str_isdigit (s : String) : Bool :=
  !s.isEmpty && s.toList.all Char.isDigit

/-- Numeric value of a digit string (what `Decimal(value)` holds for a digit
string, leading zeros allowed). -/
def digitsVal (s : String) : Nat :=
  s.toList.foldl (fun acc c => acc * 10 + (c.toNat - '0'.toNat)) 0

/-- Embedding of `parse_amount`: strip all commas and dots; if the remainder is not purely
digits raise `ValueError` (modelled as `none`); otherwise the result is the
exact `Decimal` value `digitsVal / 100`, represented by its numerator in
hundredths. -/
def parse_amount (value : String) : Option Nat :=
  let v := strip_punct value
  if str_isdigit v then some (digitsVal v) else none

/-- Embedding of `str(Decimal(n) / 100)` for a natural `n`: the division is exact, and
Python's `Decimal` division removes trailing zeros from the coefficient to
bring the exponent as close to the ideal exponent 0 as possible, so
`Decimal(450)/100` prints as `4.5` and `Decimal(400)/100` as `4`. -/
def decimal_str (n : Nat) : String :=
  if n % 100 == 0 then toString (n / 100)
  else if n % 10 == 0 then toString (n / 100) ++ "." ++ toString ((n / 10) % 10)
  else toString (n / 100) ++ "." ++ (if n % 100 < 10 then "0" else "") ++ toString (n % 100)

/-! Date parsing (`parse_date`, app.py lines 53-55) -/

/-- The ambient current date, which `dateutil` consults for components the
input omits. -/
structure Date where
  year : Nat
  month : Nat
  day : Nat
deriving DecidableEq, Repr

/-- Gregorian leap year. -/
def isLeap (y : Nat) : Bool :=
  (y % 4 == 0 && y % 100 != 0) || y % 400 == 0

/-- Days in a month of a given year. -/
def daysInMonth (y m : Nat) : Nat :=
  if m == 2 then (if isLeap y then 29 else 28)
  else if m == 4 || m == 6 || m == 9 || m == 11 then 30
  else 31

/-- A real calendar date within Python `datetime`'s representable range. -/
def validDate (y m d : Nat) : Bool :=
  1 ≤ y && y ≤ 9999 && 1 ≤ m && m ≤ 12 && 1 ≤ d && d ≤ daysInMonth y m

/-- Zero-pad to two digits. -/
def pad2 (n : Nat) : String :=
  if n < 10 then "0" ++ toString n else toString n

/-- Zero-pad to four digits. -/
def pad4 (n : Nat) : String :=
  if n < 10 then "000" ++ toString n
  else if n < 100 then "00" ++ toString n
  else if n < 1000 then "0" ++ toString n
  else toString n

/-- Embedding of `strftime('%Y-%m-%d')`. -/
def fmtDate (y m d : Nat) : String :=
  pad4 y ++ "-" ++ pad2 m ++ "-" ++ pad2 d

/-- Accept `(y, m, d)` when it is a real calendar date. -/
def tryDate (y m d : Nat) : Option String :=
  if validDate y m d then some (fmtDate y m d) else none

/-- Month-first interpretation, falling back on day-first only when the
month-first one is not a valid calendar date. -/
def tryMonthFirst (y a b : Nat) : Option String :=
  match tryDate y a b with
  | some s => some s
  | none => tryDate y b a

/-- Split a character list at every separator character, keeping the pieces
in order (pieces may be empty). -/
def splitChars (p : Char → Bool) : List Char → List Char → List String
  | [], acc => [acc.reverse.asString]
  | c :: cs, acc =>
      if p c then acc.reverse.asString :: splitChars p cs []
      else splitChars p cs (c :: acc)

/-- The numeric components of a date string: split on the separators
hyphen, slash and space, drop empty pieces. -/
def dateTokens (s : String) : List String :=
  (splitChars (fun c => c == '-' || c == '/' || c == ' ') s.toList []).filter
    (fun t => !t.isEmpty)

/-- Modelled from the spec: the source's `parse_date` delegates to the
third-party `dateutil` parser, whose code is not part of this repository;
section 4.3 of the spec is its normative description. Numeric component forms
are modelled (year-first when the first component has four digits, otherwise
month-day with day-month as fallback, exactly when the month-first reading is
not a valid calendar date); components the input omits default to the current
date's. Textual month names, which no claim exercises, are not modelled: a
non-numeric component is rejected, as all-numeric junk dates are, with
`InvalidDate` (modelled as `none`). The output is always
`strftime('%Y-%m-%d')` of the resolved calendar date. -/
def parse_date (today : Date) (value : String) : Option String :=
  let toks := dateTokens value
  if toks.all str_isdigit then
    match toks with
    | [t1] =>
        if t1.length == 4 then tryDate (digitsVal t1) today.month today.day
        else tryDate today.year today.month (digitsVal t1)
    | [t1, t2] => tryMonthFirst today.year (digitsVal t1) (digitsVal t2)
    | [t1, t2, t3] =>
        if t1.length == 4 then tryDate (digitsVal t1) (digitsVal t2) (digitsVal t3)
        else if t3.length == 4 then
          tryMonthFirst (digitsVal t3) (digitsVal t1) (digitsVal t2)
        else none
    | _ => none
  else none

/-! CSV tokenization (`csv.reader(StringIO(content), delimiter, quotechar)`)

The source tokenizes with Python's `csv.reader` in the excel dialect: a field
may be wrapped in double quotes to contain the delimiter or newlines; a
doubled quote inside a quoted field is a literal quote; text after a closing
quote is appended to the field (non-strict mode); a blank line yields the
empty row `[]`; a trailing newline does not create an extra row. Rows are
delimited by the newline character (the spec's examples and all claims use
newline-terminated text). -/

/-- Tokenizer mode: at the start of a field, inside an unquoted field, inside
a quoted field, or just after a closing quote. -/
inductive CsvMode
  | fieldStart
  | inField
  | inQuoted
  | afterQuote
deriving DecidableEq, Repr

/-- Tokenizer state: finished rows (reversed), fields of the current row
(reversed), characters of the current field (reversed), whether the current
row has consumed any character, and the mode. -/
structure CsvState where
  rows : List (List String)
  cur : List String
  fld : List Char
  started : Bool
  mode : CsvMode

/-- Close the current field and stay in the current row. -/
def finishField (st : CsvState) : CsvState :=
  { st with cur := st.fld.reverse.asString :: st.cur, fld := [],
            mode := .fieldStart, started := true }

/-- Close the current row: a row that consumed no character at all is the
empty row `[]` (a blank input line), otherwise the accumulated fields. -/
def finishRow (st : CsvState) : CsvState :=
  if st.started then
    { rows := ((st.fld.reverse.asString :: st.cur).reverse) :: st.rows,
      cur := [], fld := [], started := false, mode := .fieldStart }
  else
    { rows := [] :: st.rows, cur := [], fld := [], started := false,
      mode := .fieldStart }

/-- One character of `csv.reader` tokenization. -/
def csvStep (delim : Char) (st : CsvState) (c : Char) : CsvState :=
  match st.mode with
  | .inQuoted =>
      if c == '"' then { st with mode := .afterQuote }
      else { st with fld := c :: st.fld }
  | .afterQuote =>
      if c == '"' then { st with fld := '"' :: st.fld, mode := .inQuoted }
      else if c == delim then finishField st
      else if c == '\n' then finishRow st
      else { st with fld := c :: st.fld, mode := .inField }
  | .fieldStart =>
      if c == '"' then { st with mode := .inQuoted, started := true }
      else if c == delim then finishField st
      else if c == '\n' then finishRow st
      else { st with fld := c :: st.fld, mode := .inField, started := true }
  | .inField =>
      if c == delim then finishField st
      else if c == '\n' then finishRow st
      else { st with fld := c :: st.fld }

/-- Embedding of `list(csv.reader(StringIO(content), delimiter=delim, quotechar='"'))`:
fold the tokenizer over the content; a final row not terminated by a newline
is still emitted. -/
def csvReadRows (delim : Char) (content : String) : List (List String) :=
  let st := content.toList.foldl (csvStep delim) ⟨[], [], [], false, .fieldStart⟩
  let rows := if st.started then
                ((st.fld.reverse.asString :: st.cur).reverse) :: st.rows
              else st.rows
  rows.reverse

/-! The pipeline (`process_csv`, app.py lines 57-98, and `upload_csv`,
app.py lines 101-131) -/

/-- A canonical transaction as built at app.py lines 83-89 (the `amount`
field is the string `str(parse_amount(row[2]))`). -/
structure Txn where
  transaction_date : String
  description : String
  amount : String
  currency : String
  status : String
deriving DecidableEq, Repr

/-- The error outcomes of the pipeline, one per distinct error site:
`'CSV file contains no data'`, `'No valid data rows found'`,
`'Malformed row: …'` (payload: the row), the `dateutil` exception escaping
`parse_date` (payload: the offending value), the
`ValueError(f"Invalid amount: {value}")` escaping `parse_amount` (payload:
the already-stripped value, as in the f-string), and `'Empty file'` from
`upload_csv`. -/
inductive PipeError
  | noData
  | noDataRows
  | malformedRow (row : List String)
  | invalidDate (value : String)
  | invalidAmount (stripped : String)
  | emptyFile
deriving DecidableEq, Repr

/-- The body of the row loop (app.py lines 80-89): column-count check first,
then the `transaction_data` dict literal, whose values evaluate in source
order — `parse_date(row[0])`, `row[1]`, `parse_amount(row[2])`, `row[3]`,
`row[4].lower()` — so a date failure is raised before an amount failure. -/
def normalize_row (today : Date) (row : List String) : Except PipeError Txn :=
  if row.length < 5 then .error (.malformedRow row)
  else
    match parse_date today (row.getD 0 "") with
    | none => .error (.invalidDate (row.getD 0 ""))
    | some d =>
        match parse_amount (row.getD 2 "") with
        | none => .error (.invalidAmount (strip_punct (row.getD 2 "")))
        | some n =>
            .ok { transaction_date := d, description := row.getD 1 "",
                  amount := decimal_str n, currency := row.getD 3 "",
                  status := lowerStr (row.getD 4 "") }

/-- The row loop: normalize every data row in order, short-circuiting at the
first failure (the first exception unwinds out of the loop). -/
def run_rows (today : Date) : List (List String) → List Txn → Except PipeError (List Txn)
  | [], acc => .ok acc.reverse
  | r :: rs, acc =>
      match normalize_row today r with
      | .error e => .error e
      | .ok t => run_rows today rs (t :: acc)

/-- An ingestion outcome: the `{'error': …}` dict or the
`{'message': …, 'data': […]}` dict. -/
inductive PipeResult
  | error (e : PipeError)
  | ok (records : List Txn)
deriving DecidableEq, Repr

/-- Embedding of `process_csv` from the tokenized rows on: empty row list and empty
data-row list checks, the header split (the normalized header names are
computed as in the source but feed nothing downstream), the row loop, and
persistence. `db.session.add` stages each record inside the loop but
`db.session.commit()` runs only after the whole loop, so the second component
— the records actually committed to the sink — is empty unless every row
succeeded. -/
def process_rows (today : Date) (rows : List (List String)) (has_header : Bool) :
    PipeResult × List Txn :=
  if rows.isEmpty then (.error .noData, [])
  else
    let _headers := if has_header then (rows.headD []).map normalize_column_name
                    else ["transaction_date", "description", "amount", "currency", "status"]
    let data_rows := if has_header then rows.tail else rows
    if data_rows.isEmpty then (.error .noDataRows, [])
    else
      match run_rows today data_rows [] with
      | .error e => (.error e, [])
      | .ok ts => (.ok ts, ts)

/-- Embedding of `process_csv(file_content, has_header)`: detect the delimiter on the full
content, tokenize, then process the rows. -/
def process_csv (today : Date) (file_content : String) (has_header : Bool) :
    PipeResult × List Txn :=
  process_rows today (csvReadRows (detect_delimiter file_content) file_content) has_header

/-- The data rows `process_csv` iterates over (rows after the optional header
split), for stating row-level properties of whole files. -/
def data_rows_of (file_content : String) (has_header : Bool) : List (List String) :=
  let rows := csvReadRows (detect_delimiter file_content) file_content
  if has_header then rows.tail else rows

/-- Python `str.strip()` on ASCII text: remove leading and trailing
whitespace. -/
def trimStr (s : String) : String :=
  ((s.toList.dropWhile Char.isWhitespace).reverse.dropWhile Char.isWhitespace).reverse.asString

/-- The header classifier of `upload_csv` (app.py line 123): more than one
row, and every token of row 0 normalizes into the canonical field-name set. -/
def classify_header (rows : List (List String)) : Bool :=
  rows.length > 1 &&
    (rows.headD []).all (fun col =>
      normalize_column_name col == "transaction_date" ||
      normalize_column_name col == "description" ||
      normalize_column_name col == "amount" ||
      normalize_column_name col == "currency" ||
      normalize_column_name col == "status")

/-- The non-HTTP logic of `upload_csv` (app.py lines 110-131): strip the
decoded content, reject empty content, tokenize once to classify the header
(the `not has_header and len(rows) < 1` guard is kept although unreachable),
then run `process_csv`; every exception escaping the pipeline surfaces as an
`{'error': …}` payload, which the error constructors already model. -/
def upload_pipeline (today : Date) (decoded : String) : PipeResult × List Txn :=
  let file_content := trimStr decoded
  if file_content == "" then (.error .emptyFile, [])
  else
    let rows := csvReadRows (detect_delimiter file_content) file_content
    if rows.isEmpty then (.error .noData, [])
    else
      let has_header := classify_header rows
      if !has_header && rows.length < 1 then (.error .noDataRows, [])
      else process_csv today file_content has_header

end Capia

namespace Capia

/-! Claim theorems -/

/-- The end-to-end input file of claim C1. -/
def c1_input : String :=
  "date,description,amount,currency,status\n2023-01-05,Coffee,4.50,USD,completed\n"

/-- Claim C1, counterexample. On the claimed input the pipeline does not return
a record whose amount is the string `"4.50"`: with the header skipped (the
`has_header=True` default of `process_csv`) the single record's amount is
rendered `"4.5"` — `str(Decimal('450')/100)` drops the trailing zero — and the
full `upload_csv` route classifies the `date,…` header as data (its tokens are
outside the canonical field-name set) and fails with the date error on the
token `"date"`. -/
theorem C1_counterexample :
    (process_csv ⟨2023, 6, 1⟩ c1_input true).1 =
      .ok [{ transaction_date := "2023-01-05", description := "Coffee",
             amount := "4.5", currency := "USD", status := "completed" }] ∧
    ("4.5" : String) ≠ "4.50" ∧
    (upload_pipeline ⟨2023, 6, 1⟩ c1_input).1 = .error (.invalidDate "date") :=
  ⟨by decide, by decide, by decide⟩

/-- Claim C1, amended. For the claimed input, `process_csv` with the header
flag set succeeds, for every ambient current date, with exactly one
CanonicalTransaction whose fields are `"2023-01-05"`, `"Coffee"`, `"4.5"`,
`"USD"`, `"completed"`: the amount is the exact value 4.50 but its string
rendering drops the trailing fractional zero, so amounts are not in general
rendered with two fractional digits. Under `upload_csv`'s own header
classifier the `date,…` header is not recognized, and that route instead
fails with an `InvalidDate` error on `"date"`. -/
theorem C1_amended (today : Date) :
    process_csv today c1_input true =
      (.ok [{ transaction_date := "2023-01-05", description := "Coffee",
              amount := "4.5", currency := "USD", status := "completed" }],
       [{ transaction_date := "2023-01-05", description := "Coffee",
          amount := "4.5", currency := "USD", status := "completed" }]) ∧
    (upload_pipeline today c1_input).1 = .error (.invalidDate "date") :=
  ⟨rfl, rfl⟩

/-- Claim C3. Row 0 is classified as a header iff the file has more than one
row and every token of row 0 normalizes into the canonical field-name set;
in particular the five descriptive tokens `"Transaction Date" …` are a header
when followed by a data row, and data when they are the only row. -/
theorem C3_header_classifier :
    (∀ rows : List (List String),
      classify_header rows = true ↔
        (1 < rows.length ∧ ∀ tok ∈ rows.headD [],
          normalize_column_name tok ∈
            ["transaction_date", "description", "amount", "currency", "status"])) ∧
    classify_header
      [["Transaction Date", "Description", "Amount", "Currency", "Status"],
       ["2023-01-05", "Coffee", "4.50", "USD", "completed"]] = true ∧
    classify_header
      [["Transaction Date", "Description", "Amount", "Currency", "Status"]] = false := by
  refine ⟨fun rows => ?_, by decide, by decide⟩
  simp [classify_header, List.all_eq_true, Nat.lt_iff_add_one_le, and_comm, or_assoc]

/-- Witness for `C3_header_classifier`: the characterization applied to a
concrete two-row file whose first row holds recognizable header tokens. -/
theorem C3_witness :
    classify_header
      [["Amount", "Currency", "Status", "Description", "Transaction-Date"],
       ["r1", "r2", "r3", "r4", "r5"]] = true :=
  (C3_header_classifier.1
    [["Amount", "Currency", "Status", "Description", "Transaction-Date"],
     ["r1", "r2", "r3", "r4", "r5"]]).mpr ⟨by decide, by decide⟩

/-- Claim C7. The delimiter detector always answers from `{comma, semicolon,
pipe}`, its answer always carries a maximal occurrence count among the three
candidates, a strictly highest count wins, and any tie (including the
all-zero-count tie) resolves to the earliest candidate in comma, semicolon,
pipe order — so comma wins whenever its count is at least both others, and a
sample with strictly more semicolons than commas and pipes yields the
semicolon. -/
theorem C7_delimiter (s : String) :
    (detect_delimiter s = ',' ∨ detect_delimiter s = ';' ∨ detect_delimiter s = '|') ∧
    (∀ d, (d = ',' ∨ d = ';' ∨ d = '|') →
      countChar s d ≤ countChar s (detect_delimiter s)) ∧
    (countChar s ';' ≤ countChar s ',' ∧ countChar s '|' ≤ countChar s ',' →
      detect_delimiter s = ',') ∧
    (countChar s ',' < countChar s ';' ∧ countChar s '|' ≤ countChar s ';' →
      detect_delimiter s = ';') ∧
    (countChar s ',' < countChar s '|' ∧ countChar s ';' < countChar s '|' →
      detect_delimiter s = '|') := by
  have hd : detect_delimiter s =
      (if countChar s ';' > countChar s ',' then
        (if countChar s '|' > countChar s ';' then '|' else ';')
       else (if countChar s '|' > countChar s ',' then '|' else ',')) := rfl
  refine ⟨?_, ?_, ?_, ?_, ?_⟩ <;> rw [hd]
  · split_ifs <;> simp
  · intro d hmem
    rcases hmem with rfl | rfl | rfl <;> split_ifs <;> omega
  · intro h; split_ifs <;> first | rfl | omega
  · intro h; split_ifs <;> first | rfl | omega
  · intro h; split_ifs <;> first | rfl | omega

/-- Witness for `C7_delimiter`: on a sample with two semicolons and one
comma, the hypotheses of the semicolon clause hold and the detector answers
the semicolon. -/
theorem C7_delimiter_witness : detect_delimiter "a;b;c,d" = ';' :=
  (C7_delimiter "a;b;c,d").2.2.2.1 ⟨by decide, by decide⟩

/-- Claim C10. The header row's tokens are never consulted: for any header row
`hdr` and nonempty data rows, processing `hdr :: rows` in header mode is the
same outcome (result and persisted records) as processing `rows` in
headerless mode, where every row is read positionally. -/
theorem C10_header_not_consulted (today : Date) (hdr : List String)
    (rows : List (List String)) (h : rows ≠ []) :
    process_rows today (hdr :: rows) true = process_rows today rows false := by
  simp [process_rows, List.isEmpty_iff, h]

/-- Witness for `C10_header_not_consulted`: an arbitrary two-token header
over one data row. -/
theorem C10_witness :
    process_rows ⟨2023, 6, 1⟩
        [["Any", "Header"], ["2023-01-05", "Coffee", "4.50", "USD", "ok"]] true =
      process_rows ⟨2023, 6, 1⟩ [["2023-01-05", "Coffee", "4.50", "USD", "ok"]] false :=
  C10_header_not_consulted ⟨2023, 6, 1⟩ ["Any", "Header"]
    [["2023-01-05", "Coffee", "4.50", "USD", "ok"]] (by decide)

/-- Claim C5. The amount parser is many-to-one over regional notations:
`"1,234.56"` and `"1234,56"` both parse to the same exact value 1234.56, and
`"12.3"` parses to 1.23; in general every accepted input's value is the value
of the digit string left after deleting every comma and dot, divided by
100. -/
theorem C5_amount_many_to_one :
    parse_amount "1,234.56" = some 123456 ∧
    parse_amount "1234,56" = some 123456 ∧
    parse_amount "1,234.56" = parse_amount "1234,56" ∧
    ((123456 : ℚ) / 100 = 1234.56) ∧
    parse_amount "12.3" = some 123 ∧
    ((123 : ℚ) / 100 = 1.23) ∧
    (∀ value n, parse_amount value = some n →
      (n : ℚ) / 100 = (digitsVal (strip_punct value) : ℚ) / 100) := by
  refine ⟨by decide, by decide, by decide, by norm_num, by decide, by norm_num, ?_⟩
  intro value n h
  simp only [parse_amount] at h
  split at h
  · cases h; rfl
  · cases h

/-- Witness for `C5_amount_many_to_one`: the general digit-string law at the
input `"1,234.56"`. -/
theorem C5_witness :
    (123456 : ℚ) / 100 = (digitsVal (strip_punct "1,234.56") : ℚ) / 100 :=
  C5_amount_many_to_one.2.2.2.2.2.2 "1,234.56" 123456 (by decide)

/-- Claim C6. The amount parser fails exactly when the string left after
deleting every comma and dot is not a nonempty string of decimal digits; in
particular it fails on `"12a.34"` and on `"-5.00"`. -/
theorem C6_amount_failure :
    (∀ value, parse_amount value = none ↔
      ¬ (strip_punct value ≠ "" ∧
          ∀ c ∈ (strip_punct value).toList, c.isDigit = true)) ∧
    parse_amount "12a.34" = none ∧
    parse_amount "-5.00" = none := by
  refine ⟨fun value => ?_, by decide, by decide⟩
  have hiff : parse_amount value = none ↔ str_isdigit (strip_punct value) = false := by
    simp only [parse_amount]
    rcases hb : str_isdigit (strip_punct value) <;> simp [hb]
  have hempty : (strip_punct value).isEmpty = false ↔ strip_punct value ≠ "" := by
    rw [Bool.eq_false_iff]
    exact not_congr (String.isEmpty_iff (strip_punct value))
  have hchar : str_isdigit (strip_punct value) = true ↔
      (strip_punct value ≠ "" ∧ ∀ c ∈ (strip_punct value).toList, c.isDigit = true) := by
    simp only [str_isdigit, Bool.and_eq_true, Bool.not_eq_true', List.all_eq_true, hempty]
  rw [hiff, Bool.eq_false_iff, Ne, hchar]

/-- Witness for `C6_amount_failure`: the characterization applied to the
concrete input `"7x"`, whose stripped remainder contains a letter. -/
theorem C6_witness : parse_amount "7x" = none :=
  (C6_amount_failure.1 "7x").mpr (by decide)

/-- Claim C8. The row normalizer short-circuits in the fixed order column-count
check, date parse of token 0, amount parse of token 2; on success the record
copies token 1 and token 3 verbatim, lower-cases token 4, and ignores every
token beyond the fifth (the row behaves as its first five tokens). -/
theorem C8_row_normalizer (today : Date) (row : List String) :
    (row.length < 5 → normalize_row today row = .error (.malformedRow row)) ∧
    (5 ≤ row.length → parse_date today (row.getD 0 "") = none →
      normalize_row today row = .error (.invalidDate (row.getD 0 ""))) ∧
    (∀ d, 5 ≤ row.length → parse_date today (row.getD 0 "") = some d →
      parse_amount (row.getD 2 "") = none →
      normalize_row today row = .error (.invalidAmount (strip_punct (row.getD 2 "")))) ∧
    (∀ d n, 5 ≤ row.length → parse_date today (row.getD 0 "") = some d →
      parse_amount (row.getD 2 "") = some n →
      normalize_row today row =
        .ok { transaction_date := d, description := row.getD 1 "",
              amount := decimal_str n, currency := row.getD 3 "",
              status := lowerStr (row.getD 4 "") }) ∧
    normalize_row today row = normalize_row today (row.take 5) := by
  have htake : ∀ i : Nat, i < 5 → (row.take 5).getD i "" = row.getD i "" := by
    intro i hi
    simp [List.getD, List.getElem?_take, hi]
  refine ⟨?_, ?_, ?_, ?_, ?_⟩
  · intro h
    simp [normalize_row, h]
  · intro h hd
    simp only [List.getD, List.get?_eq_getElem?] at hd
    simp [normalize_row, List.getD, hd, show ¬ (row.length < 5) by omega]
  · intro d h hd ha
    simp only [List.getD, List.get?_eq_getElem?] at hd ha
    simp [normalize_row, List.getD, hd, ha, show ¬ (row.length < 5) by omega]
  · intro d n h hd ha
    simp only [List.getD, List.get?_eq_getElem?] at hd ha
    simp [normalize_row, List.getD, hd, ha, show ¬ (row.length < 5) by omega]
  · by_cases h : row.length < 5
    · rw [List.take_of_length_le (by omega)]
    · have hlen : ¬ ((row.take 5).length < 5) := by
        simp [List.length_take]
        omega
      simp only [normalize_row, htake 0 (by omega), htake 1 (by omega),
        htake 2 (by omega), htake 3 (by omega), htake 4 (by omega),
        if_neg h, if_neg hlen]

/-- Witness for `C8_row_normalizer`: a four-token row is malformed, and a
six-token row succeeds with the sixth token ignored, the description and
currency verbatim and the status lower-cased. -/
theorem C8_witness :
    normalize_row ⟨2023, 6, 1⟩ ["2023-01-05", "Coffee", "4.50", "USD"] =
      .error (.malformedRow ["2023-01-05", "Coffee", "4.50", "USD"]) ∧
    normalize_row ⟨2023, 6, 1⟩
        ["2023-01-05", "Coffee", "4.50", "USD", "Completed", "extra"] =
      .ok { transaction_date := "2023-01-05", description := "Coffee",
            amount := "4.5", currency := "USD", status := "completed" } :=
  ⟨(C8_row_normalizer ⟨2023, 6, 1⟩ ["2023-01-05", "Coffee", "4.50", "USD"]).1
     (by decide),
   (C8_row_normalizer ⟨2023, 6, 1⟩
       ["2023-01-05", "Coffee", "4.50", "USD", "Completed", "extra"]).2.2.2.1
     "2023-01-05" 450 (by decide) (by decide) (by decide)⟩

/-- The row loop surfaces the first error: when every row of `pre`
normalizes and `bad` fails with `e`, the run over `pre ++ bad :: post` fails
with `e`, whatever was accumulated so far. -/
theorem run_rows_first_error (today : Date) (e : PipeError) (bad : List String)
    (post : List (List String)) (hbad : normalize_row today bad = .error e) :
    ∀ (pre : List (List String)) (acc : List Txn),
      (∀ r ∈ pre, (normalize_row today r).isOk = true) →
      run_rows today (pre ++ bad :: post) acc = .error e := by
  intro pre
  induction pre with
  | nil =>
      intro acc _
      simp [run_rows, hbad]
  | cons r rs ih =>
      intro acc hpre
      have hr := hpre r (by simp)
      cases hnr : normalize_row today r with
      | error e2 => rw [hnr] at hr; simp [Except.isOk, Except.toBool] at hr
      | ok t =>
          simp only [List.cons_append, run_rows, hnr]
          exact ih (t :: acc) (fun r2 h2 => hpre r2 (by simp [h2]))

/-- Evaluation of `process_rows` under a data-row decomposition `pre ++ bad :: post`: the
outcome is the first error and nothing is committed. -/
theorem process_rows_first_error (today : Date) (rows : List (List String))
    (hh : Bool) (pre : List (List String)) (bad : List String)
    (post : List (List String)) (e : PipeError)
    (hsplit : (if hh then rows.tail else rows) = pre ++ bad :: post)
    (hpre : ∀ r ∈ pre, (normalize_row today r).isOk = true)
    (hbad : normalize_row today bad = .error e) :
    process_rows today rows hh = (.error e, []) := by
  have hrun := run_rows_first_error today e bad post hbad pre [] hpre
  cases hh with
  | false =>
      simp only [Bool.false_eq_true, if_false] at hsplit
      subst hsplit
      simp [process_rows, hrun]
  | true =>
      simp only [if_pos] at hsplit
      cases rows with
      | nil => simp at hsplit
      | cons r0 rest =>
          simp only [List.tail_cons] at hsplit
          subst hsplit
          simp [process_rows, hrun]

/-- Claim C2. The pipeline is all-or-nothing per file: whenever the data rows
decompose as `pre ++ bad :: post` with every row of `pre` normalizing and
`bad` failing with error `e` — i.e. `bad` is the first failing row in row
order — `process_csv` returns exactly that error and commits zero records to
the sink (the loop's staged `session.add`s are never followed by the
`commit`). -/
theorem C2_all_or_nothing (today : Date) (content : String) (has_header : Bool)
    (pre : List (List String)) (bad : List String) (post : List (List String))
    (e : PipeError)
    (hsplit : data_rows_of content has_header = pre ++ bad :: post)
    (hpre : ∀ r ∈ pre, (normalize_row today r).isOk = true)
    (hbad : normalize_row today bad = .error e) :
    process_csv today content has_header = (.error e, []) :=
  process_rows_first_error today (csvReadRows (detect_delimiter content) content)
    has_header pre bad post e hsplit hpre hbad

/-- Witness for `C2_all_or_nothing`: two valid rows precede a four-token row;
the result is the malformed-row error and the committed record list is
empty. -/
theorem C2_witness :
    process_csv ⟨2023, 6, 1⟩
        "2023-01-05,Coffee,4.50,USD,completed\n2023-01-06,Tea,3.10,USD,pending\n1,2,3,4\n"
        false =
      (.error (.malformedRow ["1", "2", "3", "4"]), []) :=
  C2_all_or_nothing ⟨2023, 6, 1⟩
    "2023-01-05,Coffee,4.50,USD,completed\n2023-01-06,Tea,3.10,USD,pending\n1,2,3,4\n"
    false
    [["2023-01-05", "Coffee", "4.50", "USD", "completed"],
     ["2023-01-06", "Tea", "3.10", "USD", "pending"]]
    ["1", "2", "3", "4"] []
    (.malformedRow ["1", "2", "3", "4"])
    (by decide) (by decide) rfl

/-- The input file of claim C4's counterexample: its date token omits the
year. -/
def c4_input : String := "03-15,Coffee,4.50,USD,completed"

/-- Claim C4, counterexample. The pipeline is not deterministic across runs
for inputs whose dates omit the year: on identical input bytes, a run whose
current date lies in 2023 resolves the date token `03-15` to `2023-03-15`
and a run in 2024 resolves it to `2024-03-15`, so the two runs return
different CanonicalTransaction sequences. -/
theorem C4_counterexample :
    (process_csv ⟨2023, 6, 1⟩ c4_input false).1 =
      .ok [{ transaction_date := "2023-03-15", description := "Coffee",
             amount := "4.5", currency := "USD", status := "completed" }] ∧
    (process_csv ⟨2024, 6, 1⟩ c4_input false).1 =
      .ok [{ transaction_date := "2024-03-15", description := "Coffee",
             amount := "4.5", currency := "USD", status := "completed" }] ∧
    process_csv ⟨2023, 6, 1⟩ c4_input false ≠ process_csv ⟨2024, 6, 1⟩ c4_input false :=
  ⟨by decide, by decide, by decide⟩

/-- A date string with three components never consults the ambient current
date: the three-component branch of the parser uses only the tokens. -/
theorem parse_date_today_irrelevant (t1 t2 : Date) (s : String)
    (h : (dateTokens s).length = 3) : parse_date t1 s = parse_date t2 s := by
  obtain ⟨a, b, c, hts⟩ := List.length_eq_three.mp h
  simp only [parse_date, hts]

/-- A row whose first token has three date components normalizes identically
under any two ambient current dates. -/
theorem normalize_row_today_irrelevant (t1 t2 : Date) (row : List String)
    (h : (dateTokens (row.getD 0 "")).length = 3) :
    normalize_row t1 row = normalize_row t2 row := by
  unfold normalize_row
  rw [parse_date_today_irrelevant t1 t2 _ h]

/-- The row loop is independent of the ambient current date when every row's
first token has three date components. -/
theorem run_rows_today_irrelevant (t1 t2 : Date) :
    ∀ (rows : List (List String)) (acc : List Txn),
      (∀ r ∈ rows, (dateTokens (r.getD 0 "")).length = 3) →
      run_rows t1 rows acc = run_rows t2 rows acc := by
  intro rows
  induction rows with
  | nil => intro acc _; rfl
  | cons r rs ih =>
      intro acc h
      have hr := normalize_row_today_irrelevant t1 t2 r (h r (by simp))
      simp only [run_rows, hr]
      cases hnr : normalize_row t2 r with
      | error e => simp [hnr]
      | ok t =>
          simp only [hnr]
          exact ih (t :: acc) (fun r2 h2 => h r2 (by simp [h2]))

/-- Independence of `process_rows` from the ambient current date when every data
row's first token has three date components. -/
theorem process_rows_today_irrelevant (t1 t2 : Date) (rows : List (List String))
    (hh : Bool)
    (h : ∀ r ∈ (if hh then rows.tail else rows),
      (dateTokens (r.getD 0 "")).length = 3) :
    process_rows t1 rows hh = process_rows t2 rows hh := by
  have hrun := run_rows_today_irrelevant t1 t2 (if hh then rows.tail else rows) [] h
  simp only [process_rows]
  rw [hrun]

/-- Claim C4, amended. Runs sharing the same ambient current date are
deterministic (the pipeline is a pure function of the current date and the
bytes), and whenever every data row's date token spells out all three
components — year, month and day — the result does not depend on the ambient
current date at all, so such files are deterministic across runs on any two
dates. Inputs whose dates omit components (e.g. the year) take the missing
components from the run's current date and so can differ between runs. -/
theorem C4_amended (t1 t2 : Date) (content : String) (has_header : Bool)
    (h : ∀ r ∈ data_rows_of content has_header,
      (dateTokens (r.getD 0 "")).length = 3) :
    process_csv t1 content has_header = process_csv t2 content has_header :=
  process_rows_today_irrelevant t1 t2
    (csvReadRows (detect_delimiter content) content) has_header h

/-- Witness for `C4_amended`: a file with a fully-specified ISO date produces
the same outcome under two different ambient current dates. -/
theorem C4_witness :
    process_csv ⟨2023, 6, 1⟩ "2023-01-05,Coffee,4.50,USD,completed" false =
      process_csv ⟨2025, 1, 2⟩ "2023-01-05,Coffee,4.50,USD,completed" false :=
  C4_amended ⟨2023, 6, 1⟩ ⟨2025, 1, 2⟩ "2023-01-05,Coffee,4.50,USD,completed" false
    (by decide)

/-- A successful `tryDate` certifies a real calendar date and formats it. -/
theorem tryDate_some {y m d : Nat} {out : String} (h : tryDate y m d = some out) :
    validDate y m d = true ∧ out = fmtDate y m d := by
  by_cases hv : validDate y m d = true
  · refine ⟨hv, ?_⟩
    unfold tryDate at h
    rw [if_pos hv, Option.some_inj] at h
    exact h.symm
  · unfold tryDate at h
    rw [if_neg hv] at h
    cases h

/-- A successful `tryMonthFirst` certifies some real calendar date and
formats it. -/
theorem tryMonthFirst_some {y a b : Nat} {out : String}
    (h : tryMonthFirst y a b = some out) :
    ∃ yy mm dd, validDate yy mm dd = true ∧ out = fmtDate yy mm dd := by
  unfold tryMonthFirst at h
  cases h1 : tryDate y a b with
  | some s =>
      simp only [h1] at h
      obtain rfl : s = out := by injection h
      exact ⟨y, a, b, tryDate_some h1⟩
  | none =>
      simp only [h1] at h
      exact ⟨y, b, a, tryDate_some h⟩

/-- Claim C9. The date parser round-trips unambiguous ISO input —
`parse_date "2023-03-15"` returns `"2023-03-15"` under every ambient current
date — and in general every accepted date is output as
`strftime('%Y-%m-%d')` of a real calendar date. -/
theorem C9_date_roundtrip :
    (∀ today, parse_date today "2023-03-15" = some "2023-03-15") ∧
    (∀ today value out, parse_date today value = some out →
      ∃ y m d, validDate y m d = true ∧ out = fmtDate y m d) := by
  refine ⟨fun today => rfl, fun today value out h => ?_⟩
  simp only [parse_date] at h
  split at h
  · split at h
    · split at h
      · exact ⟨_, _, _, tryDate_some h⟩
      · exact ⟨_, _, _, tryDate_some h⟩
    · exact tryMonthFirst_some h
    · split at h
      · exact ⟨_, _, _, tryDate_some h⟩
      · split at h
        · exact tryMonthFirst_some h
        · exact Option.noConfusion h
    · exact Option.noConfusion h
  · exact Option.noConfusion h

/-- Witness for `C9_date_roundtrip`: the accepted ISO input `"2023-03-15"`
is the formatting of a real calendar date. -/
theorem C9_witness :
    ∃ y m d, validDate y m d = true ∧ "2023-03-15" = fmtDate y m d :=
  C9_date_roundtrip.2 ⟨2023, 1, 1⟩ "2023-03-15" "2023-03-15"
    (C9_date_roundtrip.1 ⟨2023, 1, 1⟩)

end Capia
